import Mathlib

/-!
Shallow embedding of the CellularGridEngine of `src/GameOfLife/Main.cpp`
(Conway's Game of Life on a padded grid), together with proofs of the
specification's claims about it.

The grid of the source is `Grid<Cell> grid(fieldWidth + 2, fieldHeight + 2)`,
indexed `grid[y][x]`; we model it as a total function `Nat → Nat → Cell`
whose meaningful (allocated) entries are `y ≤ H + 1`, `x ≤ W + 1` for the
logical field size `W × H` (60 × 60 in the reference configuration).
The in-place mutation of the source is modelled by explicit state passing:
each operation maps a grid to a grid.  `RandomBool(0.5)` is modelled by an
explicit stream of booleans, one per cell coordinate.
-/

namespace GameOfLife

/-- One cell: two one-bit flags, as the C++ bitfield `struct Cell`. -/
@[ext]
structure Cell where
  previous : Bool
  current : Bool
deriving DecidableEq

/-- The padded grid storage, `grid[y][x]`. -/
def GridF : Type := Nat → Nat → Cell

/-- Interior (logical, non-padding) coordinates of a `(W+2) × (H+2)` grid:
the loops `Range(1, grid.height() - 2)` × `Range(1, grid.width() - 2)`. -/
def isInterior (W H y x : Nat) : Prop :=
  1 ≤ y ∧ y ≤ H ∧ 1 ≤ x ∧ x ≤ W

instance (W H y x : Nat) : Decidable (isInterior W H y x) := by
  unfold isInterior; infer_instance

/-- Padding coordinates: allocated cells on the one-cell border ring. -/
def isPadding (W H y x : Nat) : Prop :=
  y ≤ H + 1 ∧ x ≤ W + 1 ∧ (y = 0 ∨ y = H + 1 ∨ x = 0 ∨ x = W + 1)

instance (W H y x : Nat) : Decidable (isPadding W H y x) := by
  unfold isPadding; infer_instance

/-- First pass of `Update`: `for (auto& cell : grid) cell.previous = cell.current;`
applied to every allocated cell (pointwise, each cell only from itself). -/
def snapshotPass (g : GridF) : GridF :=
  fun y x => ⟨(g y x).current, (g y x).current⟩

/-- `numLivingCell`: the sum of `previous` over the 8 neighbours of `(y, x)`,
exactly the eight reads of the source. -/
def neighborCount (g : GridF) (y x : Nat) : Nat :=
  (g (y - 1) (x - 1)).previous.toNat + (g (y - 1) x).previous.toNat +
    (g (y - 1) (x + 1)).previous.toNat + (g y (x - 1)).previous.toNat +
    (g y (x + 1)).previous.toNat + (g (y + 1) (x - 1)).previous.toNat +
    (g (y + 1) x).previous.toNat + (g (y + 1) (x + 1)).previous.toNat

/-- The transition rule of the source:
`(centerCell == 0 && numLivingCell == 3) || (centerCell == 1 && (numLivingCell == 2 || numLivingCell == 3))`. -/
def lifeRule (centerCell : Bool) (numLivingCell : Nat) : Bool :=
  (centerCell == false && numLivingCell == 3) ||
    (centerCell == true && (numLivingCell == 2 || numLivingCell == 3))

/-- Write `b` into `grid[y][x].current`, leaving `previous` and all other
cells unchanged. -/
def setCurrent (g : GridF) (y x : Nat) (b : Bool) : GridF :=
  fun y' x' => if y' = y ∧ x' = x then ⟨(g y x).previous, b⟩ else g y' x'

/-- One iteration of the body of the second loop of `Update` at cell `(y, x)`:
read `previous` of the centre and the 8 neighbours from the current state of
the grid, write the rule's result into `current`. -/
def evalCell (g : GridF) (y x : Nat) : GridF :=
  setCurrent g y x (lifeRule (g y x).previous (neighborCount g y x))

/-- The interior coordinates in the row-major order of the nested loops
`for y in Range(1, H)` / `for x in Range(1, W)`. -/
def interiorCoords (W H : Nat) : List (Nat × Nat) :=
  ((List.range H).product (List.range W)).map (fun p => (p.1 + 1, p.2 + 1))

/-- `Update`: the snapshot pass followed by the sequential in-place
evaluation pass over the interior cells, as in the source. -/
def Update (W H : Nat) (g : GridF) : GridF :=
  (interiorCoords W H).foldl (fun acc p => evalCell acc p.1 p.2) (snapshotPass g)

/-- The step as a pure function of the grid: interior cells get
`previous := old current` and `current := rule of the snapshot`; all other
cells are only snapshotted.  `Update` is proved to coincide with it. -/
def updateFun (W H : Nat) (g : GridF) : GridF :=
  fun y x =>
    if isInterior W H y x then
      ⟨(snapshotPass g y x).previous,
        lifeRule (snapshotPass g y x).previous (neighborCount (snapshotPass g) y x)⟩
    else snapshotPass g y x

/-- `FillRandom`: `grid.fill({0,0})`, then every interior cell gets
`{previous = 0, current = RandomBool(0.5)}`; the random source is the
explicit stream `r`. -/
def FillRandom (W H : Nat) (r : Nat → Nat → Bool) (_g : GridF) : GridF :=
  fun y x => if isInterior W H y x then ⟨false, r y x⟩ else ⟨false, false⟩

/-- The clear button: `grid.fill({ 0, 0 })`. -/
def clearGrid (_g : GridF) : GridF :=
  fun _ _ => ⟨false, false⟩

/-- A pixel colour (red, green, blue). -/
abbrev Color : Type := Nat × Nat × Nat

/-- `colorLivingCell = Color(0, 255, 0)`. -/
def colorLivingCell : Color := (0, 255, 0)

/-- `colorDeadCell = Palette::Black`. -/
def colorDeadCell : Color := (0, 0, 0)

/-- An image: its dimensions and its pixels `image[y][x]`. -/
structure Image where
  width : Nat
  height : Nat
  pix : Nat → Nat → Color

/-- `CopyToImage`: for every `y < image.height()`, `x < image.width()`,
`image[y][x] = grid[y + 1][x + 1].current ? colorLivingCell : colorDeadCell`.
No dimension check is performed. -/
def CopyToImage (g : GridF) (img : Image) : Image :=
  { img with
    pix := fun y x =>
      if y < img.height ∧ x < img.width then
        (if (g (y + 1) (x + 1)).current then colorLivingCell else colorDeadCell)
      else img.pix y x }

/-- The mouse-edit target: `Cursor::Pos() / 10 + Point(1, 1)`, as an
`(x, y)` pair of internal grid indices. -/
def mouseTarget (px py : Nat) : Nat × Nat :=
  (px / 10 + 1, py / 10 + 1)

/-- A mouse edit inside the canvas: `grid[target].current = b` where
`target` is a `Point`, so the write is `grid[target.y][target.x]`. -/
def mouseEdit (g : GridF) (px py : Nat) (b : Bool) : GridF :=
  setCurrent g (mouseTarget px py).2 (mouseTarget px py).1 b

/-- A horizontal blinker: the grid whose only live cells (in `current`) are
`(yi, xi), (yi, xi+1), (yi, xi+2)`, with all `previous` bits dead. -/
def rowGrid (yi xi : Nat) : GridF :=
  fun y x => ⟨false, decide (y = yi ∧ (x = xi ∨ x = xi + 1 ∨ x = xi + 2))⟩

/-- A vertical blinker: live `current` exactly at
`(yi-1, xi+1), (yi, xi+1), (yi+1, xi+1)` (written subtraction-free). -/
def colGrid (yi xi : Nat) : GridF :=
  fun y x => ⟨false, decide (x = xi + 1 ∧ (y + 1 = yi ∨ y = yi ∨ y = yi + 1))⟩

/-! ### Helper lemmas: the sequential evaluation pass computes `updateFun` -/

theorem toNat_decide (P : Prop) [Decidable P] : (decide P).toNat = if P then 1 else 0 := by
  by_cases h : P <;> simp [h]

theorem lifeRule_eq_true (b : Bool) (n : Nat) :
    lifeRule b n = true ↔ ((b = false ∧ n = 3) ∨ (b = true ∧ (n = 2 ∨ n = 3))) := by
  cases b <;> simp [lifeRule]

theorem setCurrent_previous (g : GridF) (a b : Nat) (v : Bool) (y x : Nat) :
    (setCurrent g a b v y x).previous = (g y x).previous := by
  unfold setCurrent
  by_cases h : y = a ∧ x = b
  · obtain ⟨h1, h2⟩ := h
    subst h1; subst h2
    simp
  · simp [h]

theorem setCurrent_other (g : GridF) (a b : Nat) (v : Bool) (y x : Nat)
    (h : ¬(y = a ∧ x = b)) : setCurrent g a b v y x = g y x := by
  unfold setCurrent
  rw [if_neg h]

theorem setCurrent_target (g : GridF) (a b : Nat) (v : Bool) :
    (setCurrent g a b v a b).current = v := by
  unfold setCurrent
  simp

theorem evalCell_previous (g : GridF) (a b y x : Nat) :
    (evalCell g a b y x).previous = (g y x).previous := by
  unfold evalCell
  exact setCurrent_previous g a b _ y x

theorem neighborCount_congr {g1 g2 : GridF} (y x : Nat)
    (h : ∀ y' x', (g1 y' x').previous = (g2 y' x').previous) :
    neighborCount g1 y x = neighborCount g2 y x := by
  unfold neighborCount
  simp [h]

theorem foldl_previous (l : List (Nat × Nat)) (acc : GridF) (y x : Nat) :
    ((l.foldl (fun a p => evalCell a p.1 p.2) acc) y x).previous = (acc y x).previous := by
  induction l generalizing acc with
  | nil => rfl
  | cons p t ih => rw [List.foldl_cons, ih, evalCell_previous]

theorem foldl_current_notmem (l : List (Nat × Nat)) (acc : GridF) (y x : Nat)
    (h : (y, x) ∉ l) :
    ((l.foldl (fun a p => evalCell a p.1 p.2) acc) y x).current = (acc y x).current := by
  induction l generalizing acc with
  | nil => rfl
  | cons p t ih =>
    rw [List.foldl_cons, ih _ (fun hm => h (List.mem_cons_of_mem _ hm))]
    have hne : ¬(y = p.1 ∧ x = p.2) := by
      rintro ⟨h1, h2⟩
      apply h
      have hp : (y, x) = p := by cases p; simp_all
      rw [hp]
      exact List.mem_cons_self _ _
    unfold evalCell setCurrent
    simp [hne]

theorem foldl_current_mem :
    ∀ (l : List (Nat × Nat)) (acc : GridF) (y x : Nat), l.Nodup → (y, x) ∈ l →
    ((l.foldl (fun a p => evalCell a p.1 p.2) acc) y x).current
      = lifeRule ((acc y x).previous) (neighborCount acc y x) := by
  intro l
  induction l with
  | nil => intro acc y x _ h; cases h
  | cons p t ih =>
    intro acc y x hnd h
    rw [List.foldl_cons]
    rcases List.mem_cons.mp h with heq | hmem
    · have hnt : (y, x) ∉ t := by
        rw [heq]
        exact (List.nodup_cons.mp hnd).1
      rw [foldl_current_notmem _ _ _ _ hnt]
      rcases p with ⟨a, b⟩
      injection heq with h1 h2
      subst h1; subst h2
      unfold evalCell setCurrent
      simp
    · rw [ih (evalCell acc p.1 p.2) y x (List.nodup_cons.mp hnd).2 hmem,
        evalCell_previous,
        neighborCount_congr y x (fun y' x' => evalCell_previous acc p.1 p.2 y' x')]

theorem mem_interiorCoords {W H y x : Nat} :
    (y, x) ∈ interiorCoords W H ↔ isInterior W H y x := by
  unfold interiorCoords isInterior
  rw [List.mem_map]
  constructor
  · rintro ⟨⟨a, b⟩, hp, heq⟩
    rw [List.pair_mem_product, List.mem_range, List.mem_range] at hp
    injection heq with h1 h2
    omega
  · intro hi
    refine ⟨(y - 1, x - 1), ?_, ?_⟩
    · rw [List.pair_mem_product, List.mem_range, List.mem_range]
      omega
    · rw [Prod.mk.injEq]
      omega

theorem nodup_interiorCoords (W H : Nat) : (interiorCoords W H).Nodup := by
  unfold interiorCoords
  apply List.Nodup.map
  · rintro ⟨a, b⟩ ⟨c, d⟩ hpq
    simp only [Prod.mk.injEq] at hpq ⊢
    omega
  · exact (List.nodup_range H).product (List.nodup_range W)

theorem Update_eq_updateFun (W H : Nat) (g : GridF) (y x : Nat) :
    Update W H g y x = updateFun W H g y x := by
  unfold Update updateFun
  by_cases hi : isInterior W H y x
  · apply Cell.ext
    · rw [foldl_previous]
      simp [hi]
    · rw [foldl_current_mem _ _ _ _ (nodup_interiorCoords W H) (mem_interiorCoords.mpr hi)]
      simp [hi]
  · apply Cell.ext
    · rw [foldl_previous]
      simp [hi]
    · rw [foldl_current_notmem _ _ _ _ (fun hm => hi (mem_interiorCoords.mp hm))]
      simp [hi]

theorem updateFun_previous (W H : Nat) (g : GridF) (y x : Nat) :
    (updateFun W H g y x).previous = (g y x).current := by
  unfold updateFun snapshotPass
  split <;> rfl

theorem neighborCount_congr_le {W H : Nat} {g1 g2 : GridF} {y x : Nat}
    (hy : y ≤ H) (hx : x ≤ W)
    (h : ∀ y' x', y' ≤ H + 1 → x' ≤ W + 1 → (g1 y' x').previous = (g2 y' x').previous) :
    neighborCount g1 y x = neighborCount g2 y x := by
  unfold neighborCount
  rw [h (y - 1) (x - 1) (by omega) (by omega), h (y - 1) x (by omega) (by omega),
    h (y - 1) (x + 1) (by omega) (by omega), h y (x - 1) (by omega) (by omega),
    h y (x + 1) (by omega) (by omega), h (y + 1) (x - 1) (by omega) (by omega),
    h (y + 1) x (by omega) (by omega), h (y + 1) (x + 1) (by omega) (by omega)]

theorem update_congr_current {W H : Nat} {g1 g2 : GridF}
    (h : ∀ y x, y ≤ H + 1 → x ≤ W + 1 → (g1 y x).current = (g2 y x).current) :
    ∀ y x, y ≤ H + 1 → x ≤ W + 1 →
      (Update W H g1 y x).current = (Update W H g2 y x).current := by
  intro y x hy hx
  rw [Update_eq_updateFun, Update_eq_updateFun]
  unfold updateFun
  have hprev : ∀ y' x', y' ≤ H + 1 → x' ≤ W + 1 →
      (snapshotPass g1 y' x').previous = (snapshotPass g2 y' x').previous := by
    intro y' x' hy' hx'
    simp [snapshotPass, h y' x' hy' hx']
  by_cases hi : isInterior W H y x
  · rw [if_pos hi, if_pos hi]
    obtain ⟨h1, h2, h3, h4⟩ := hi
    rw [hprev y x hy hx, neighborCount_congr_le h2 h4 hprev]
  · rw [if_neg hi, if_neg hi]
    simp [snapshotPass, h y x hy hx]

theorem update_padding {W H : Nat} {g : GridF}
    (hg : ∀ y x, isPadding W H y x → (g y x).current = false) :
    ∀ y x, isPadding W H y x → Update W H g y x = ⟨false, false⟩ := by
  intro y x hp
  rw [Update_eq_updateFun]
  unfold updateFun
  have hni : ¬ isInterior W H y x := by
    unfold isInterior
    unfold isPadding at hp
    omega
  rw [if_neg hni]
  simp [snapshotPass, hg y x hp]

theorem iterate_padding {W H : Nat} :
    ∀ (n : Nat) (g : GridF), (∀ y x, isPadding W H y x → g y x = Cell.mk false false) →
    ∀ y x, isPadding W H y x → ((Update W H)^[n] g) y x = Cell.mk false false := by
  intro n
  induction n with
  | zero => intro g hg y x hp; simpa using hg y x hp
  | succ n ih =>
    intro g hg y x hp
    rw [Function.iterate_succ_apply]
    exact ih (Update W H g)
      (update_padding (fun a b hq => by rw [hg a b hq])) y x hp

set_option maxHeartbeats 3200000 in
theorem blinker_step1 {W H yi xi : Nat} (hx1 : 1 ≤ xi) (hx2 : xi + 2 ≤ W)
    (hy1 : 2 ≤ yi) (hy2 : yi + 1 ≤ H) :
    ∀ y x, y ≤ H + 1 → x ≤ W + 1 →
      (Update W H (rowGrid yi xi) y x).current = (colGrid yi xi y x).current := by
  intro y x hy hx
  rw [Update_eq_updateFun]
  unfold updateFun
  by_cases hi : isInterior W H y x
  · rw [if_pos hi]
    unfold isInterior at hi
    simp only [snapshotPass, rowGrid, colGrid, neighborCount, toNat_decide]
    rw [Bool.eq_iff_iff, lifeRule_eq_true]
    simp only [decide_eq_true_eq, decide_eq_false_iff_not]
    split_ifs <;> omega
  · rw [if_neg hi]
    unfold isInterior at hi
    simp only [snapshotPass, rowGrid, colGrid]
    rw [decide_eq_decide]
    omega

set_option maxHeartbeats 3200000 in
theorem blinker_step2 {W H yi xi : Nat} (hx1 : 1 ≤ xi) (hx2 : xi + 2 ≤ W)
    (hy1 : 2 ≤ yi) (hy2 : yi + 1 ≤ H) :
    ∀ y x, y ≤ H + 1 → x ≤ W + 1 →
      (Update W H (colGrid yi xi) y x).current = (rowGrid yi xi y x).current := by
  intro y x hy hx
  rw [Update_eq_updateFun]
  unfold updateFun
  by_cases hi : isInterior W H y x
  · rw [if_pos hi]
    unfold isInterior at hi
    simp only [snapshotPass, rowGrid, colGrid, neighborCount, toNat_decide]
    rw [Bool.eq_iff_iff, lifeRule_eq_true]
    simp only [decide_eq_true_eq, decide_eq_false_iff_not]
    split_ifs <;> omega
  · rw [if_neg hi]
    unfold isInterior at hi
    simp only [snapshotPass, rowGrid, colGrid]
    rw [decide_eq_decide]
    omega

/-! ### The claims -/

/-- Claim C1: for every grid and every logical (non-padding) cell, one
`Update` sets the cell's new `current` to `true` exactly when the cell's
snapshot value is dead and its 8-neighbour live count over the snapshot is 3
(birth), or the snapshot value is alive and the count is 2 or 3 (survival);
in every other case the new `current` is `false`. -/
theorem step_rule_C1 (W H : Nat) (g : GridF) (y x : Nat) (h : isInterior W H y x) :
    (Update W H g y x).current = true ↔
      (((snapshotPass g y x).previous = false ∧ neighborCount (snapshotPass g) y x = 3) ∨
        ((snapshotPass g y x).previous = true ∧
          (neighborCount (snapshotPass g) y x = 2 ∨ neighborCount (snapshotPass g) y x = 3))) := by
  rw [Update_eq_updateFun]
  unfold updateFun
  rw [if_pos h]
  exact lifeRule_eq_true _ _

/-- Witness for C1 at the centre of a 3-cell row in a 3 × 3 field: the cell
is alive with 2 live neighbours and survives. -/
theorem step_rule_C1_witness :
    isInterior 3 3 2 2 ∧
      ((Update 3 3 (rowGrid 2 1) 2 2).current = true ↔
        (((snapshotPass (rowGrid 2 1) 2 2).previous = false ∧
            neighborCount (snapshotPass (rowGrid 2 1)) 2 2 = 3) ∨
          ((snapshotPass (rowGrid 2 1) 2 2).previous = true ∧
            (neighborCount (snapshotPass (rowGrid 2 1)) 2 2 = 2 ∨
              neighborCount (snapshotPass (rowGrid 2 1)) 2 2 = 3)))) :=
  ⟨by decide, step_rule_C1 3 3 (rowGrid 2 1) 2 2 (by decide)⟩

/-- Claim C2: if every padding cell has `current` and `previous` false, then
after any finite number of `Update` steps every padding cell still has both
false; and no operation (`clearGrid`, `FillRandom`, a canvas mouse edit)
ever sets a padding cell true. -/
theorem padding_invariant_C2 (W H : Nat) (g : GridF)
    (hg : ∀ y x, isPadding W H y x → g y x = Cell.mk false false) :
    (∀ n y x, isPadding W H y x → ((Update W H)^[n] g) y x = Cell.mk false false) ∧
    (∀ y x, isPadding W H y x → clearGrid g y x = Cell.mk false false) ∧
    (∀ r y x, isPadding W H y x → FillRandom W H r g y x = Cell.mk false false) ∧
    (∀ px py b y x, px ≤ 598 → py ≤ 598 → isPadding 60 60 y x →
      mouseEdit g px py b y x = g y x) := by
  refine ⟨fun n => iterate_padding n g hg, fun y x _ => rfl, ?_, ?_⟩
  · intro r y x hp
    unfold FillRandom
    have hni : ¬ isInterior W H y x := by
      unfold isInterior
      unfold isPadding at hp
      omega
    rw [if_neg hni]
  · intro px py b y x hpx hpy hp
    unfold mouseEdit mouseTarget
    apply setCurrent_other
    unfold isPadding at hp
    omega

/-- Witness for C2 with a 1 × 1 field, two steps, and concrete padding
cells. -/
theorem padding_invariant_C2_witness :
    ((Update 1 1)^[2] (fun _ _ => Cell.mk false false)) 0 0 = Cell.mk false false ∧
    clearGrid (fun _ _ => Cell.mk false false) 0 2 = Cell.mk false false ∧
    FillRandom 1 1 (fun _ _ => true) (fun _ _ => Cell.mk false false) 2 1 = Cell.mk false false ∧
    mouseEdit (fun _ _ => Cell.mk false false) 0 0 true 0 1 =
      (fun _ _ => Cell.mk false false : GridF) 0 1 := by
  have h := padding_invariant_C2 1 1 (fun _ _ => Cell.mk false false) (fun _ _ _ => rfl)
  exact ⟨h.1 2 0 0 (by decide), h.2.1 0 2 (by decide), h.2.2.1 _ 2 1 (by decide),
    h.2.2.2 0 0 true 0 1 (by decide) (by decide) (by decide)⟩

/-- Claim C6: `Update` is deterministic and a pure function of the allocated
grid contents: two grids that agree on every allocated cell are stepped to
grids that agree on every allocated cell (no randomness or other external
input is read). -/
theorem step_deterministic_C6 (W H : Nat) (g1 g2 : GridF)
    (h : ∀ y x, y ≤ H + 1 → x ≤ W + 1 → g1 y x = g2 y x) :
    ∀ y x, y ≤ H + 1 → x ≤ W + 1 → Update W H g1 y x = Update W H g2 y x := by
  intro y x hy hx
  apply Cell.ext
  · rw [Update_eq_updateFun, Update_eq_updateFun, updateFun_previous, updateFun_previous,
      h y x hy hx]
  · exact update_congr_current (fun a b ha hb => by rw [h a b ha hb]) y x hy hx

/-- Witness for C6 on two syntactically distinct but pointwise equal 1 × 1
grids. -/
theorem step_deterministic_C6_witness :
    Update 1 1 (fun _ _ => Cell.mk false true) 1 1 =
      Update 1 1 (fun _y _x => Cell.mk ((fun b => b) false) true) 1 1 :=
  step_deterministic_C6 1 1 _ _ (fun _ _ _ _ => rfl) 1 1 (by decide) (by decide)

/-- Claim C7: the clear operation sets every cell of the grid, padding ring
included, to `{previous := false, current := false}`, and it is idempotent:
clearing twice yields the same all-dead grid as clearing once. -/
theorem clear_idempotent_C7 (g : GridF) :
    (∀ y x, clearGrid g y x = Cell.mk false false) ∧
      clearGrid (clearGrid g) = clearGrid g :=
  ⟨fun _ _ => rfl, rfl⟩

/-- Claim C9: `Update` always runs to completion: the snapshot pass and the
sequential evaluation pass over the finitely many interior coordinates
terminate and produce, at every cell, the value of the total function
`updateFun` of the grid. -/
theorem step_total_C9 (W H : Nat) (g : GridF) (y x : Nat) :
    Update W H g y x = updateFun W H g y x :=
  Update_eq_updateFun W H g y x

/-- Claim C3 counterexample: `FillRandom` does not leave padding cells
untouched.  It begins with `grid.fill({0,0})`, which writes every cell: a
padding cell whose `current` was `true` (here cell `(0,0)` of a 1 × 1
field) is overwritten to `{false, false}` instead of being left as it was. -/
theorem fillRandom_padding_counterexample_C3 :
    FillRandom 1 1 (fun _ _ => false) (fun _ _ => Cell.mk false true) 0 0 ≠
      (fun _ _ => Cell.mk false true : GridF) 0 0 := by
  decide

/-- Claim C3 as amended: `FillRandom` gives every logical (interior) cell
`previous = false` and `current` = its random draw, and writes every padding
cell to `{previous := false, current := false}` (so padding that was already
dead is unchanged, but padding is written, not skipped). -/
theorem fillRandom_effect_C3 (W H : Nat) (r : Nat → Nat → Bool) (g : GridF) (y x : Nat) :
    (isInterior W H y x → FillRandom W H r g y x = Cell.mk false (r y x)) ∧
    (isPadding W H y x → FillRandom W H r g y x = Cell.mk false false) := by
  constructor
  · intro h
    unfold FillRandom
    rw [if_pos h]
  · intro h
    unfold FillRandom
    rw [if_neg (by unfold isInterior; unfold isPadding at h; omega)]

/-- Witness for the amended C3 on a 1 × 1 field: the interior cell `(1,1)`
gets its draw, the padding corner `(0,0)` is zeroed. -/
theorem fillRandom_effect_C3_witness :
    FillRandom 1 1 (fun _ _ => true) (fun _ _ => Cell.mk false false) 1 1 =
      Cell.mk false true ∧
    FillRandom 1 1 (fun _ _ => true) (fun _ _ => Cell.mk false false) 0 0 =
      Cell.mk false false :=
  ⟨(fillRandom_effect_C3 1 1 (fun _ _ => true) (fun _ _ => Cell.mk false false) 1 1).1
      (by decide),
    (fillRandom_effect_C3 1 1 (fun _ _ => true) (fun _ _ => Cell.mk false false) 0 0).2
      (by decide)⟩

/-- Claim C4: a blinker.  From a grid empty except for the horizontal row
`(yi, xi), (yi, xi+1), (yi, xi+2)` (internal indices; logical coordinates
`(xi-1, yi-1)` etc., placed so the oscillator stays in the logical field),
one `Update` yields exactly the vertical column
`(yi-1, xi+1), (yi, xi+1), (yi+1, xi+1)` with all other cells dead, and a
second `Update` restores exactly the original row. -/
theorem blinker_C4 (W H yi xi : Nat) (hx1 : 1 ≤ xi) (hx2 : xi + 2 ≤ W)
    (hy1 : 2 ≤ yi) (hy2 : yi + 1 ≤ H) :
    ∀ y x, y ≤ H + 1 → x ≤ W + 1 →
      (Update W H (rowGrid yi xi) y x).current = (colGrid yi xi y x).current ∧
      (Update W H (Update W H (rowGrid yi xi)) y x).current = (rowGrid yi xi y x).current := by
  intro y x hy hx
  refine ⟨blinker_step1 hx1 hx2 hy1 hy2 y x hy hx, ?_⟩
  rw [update_congr_current (blinker_step1 hx1 hx2 hy1 hy2) y x hy hx]
  exact blinker_step2 hx1 hx2 hy1 hy2 y x hy hx

/-- Witness for C4 in a 5 × 5 field with the row at `yi = 2`, `xi = 1`,
observed at cell `(1, 2)` (a cell born in step 1 and dying back in step 2). -/
theorem blinker_C4_witness :
    (Update 5 5 (rowGrid 2 1) 1 2).current = (colGrid 2 1 1 2).current ∧
    (Update 5 5 (Update 5 5 (rowGrid 2 1)) 1 2).current = (rowGrid 2 1 1 2).current :=
  blinker_C4 5 5 2 1 (by decide) (by decide) (by decide) (by decide) 1 2 (by decide) (by decide)

/-- Claim C5: with an image whose dimensions match the logical field
`W × H`, `CopyToImage` writes, for every logical cell, the fixed alive
colour to pixel `(y, x)` when the cell is alive and the fixed dead colour
otherwise, and writes nothing else (other pixels and the dimensions are
unchanged); in particular, if only logical cell `(3,4)` (internal `(5,4)`)
is alive, every pixel is the dead colour except pixel `(3,4)` (i.e.
`image[4][3]`). -/
theorem render_projection_C5 (W H : Nat) (g : GridF) (img : Image)
    (hw : img.width = W) (hh : img.height = H) :
    (∀ y x, y < H → x < W →
      (CopyToImage g img).pix y x =
        (if (g (y + 1) (x + 1)).current then colorLivingCell else colorDeadCell)) ∧
    (∀ y x, ¬(y < H ∧ x < W) → (CopyToImage g img).pix y x = img.pix y x) ∧
    (CopyToImage g img).width = img.width ∧
    (CopyToImage g img).height = img.height ∧
    (∀ y x, y < H → x < W →
      (∀ yy xx, isInterior W H yy xx → (g yy xx).current = decide (yy = 5 ∧ xx = 4)) →
      (CopyToImage g img).pix y x =
        (if y = 4 ∧ x = 3 then colorLivingCell else colorDeadCell)) := by
  refine ⟨?_, ?_, rfl, rfl, ?_⟩
  · intro y x hyH hxW
    simp only [CopyToImage]
    rw [if_pos ⟨by omega, by omega⟩]
  · intro y x hn
    simp only [CopyToImage]
    rw [if_neg (by omega)]
  · intro y x hyH hxW ha
    simp only [CopyToImage]
    rw [if_pos ⟨by omega, by omega⟩, ha (y + 1) (x + 1) (by unfold isInterior; omega)]
    simp only [decide_eq_true_eq]
    by_cases hc : y = 4 ∧ x = 3
    · rw [if_pos (by omega), if_pos hc]
    · rw [if_neg (by omega), if_neg hc]

/-- Witness for C5 with the 60 × 60 reference field, only internal cell
`(5,4)` alive: pixel `(3,4)` is the alive colour, pixel `(0,0)` the dead
colour. -/
theorem render_projection_C5_witness :
    (CopyToImage (fun y x => Cell.mk false (decide (y = 5 ∧ x = 4)))
        (Image.mk 60 60 (fun _ _ => (9, 9, 9)))).pix 4 3 = colorLivingCell ∧
    (CopyToImage (fun y x => Cell.mk false (decide (y = 5 ∧ x = 4)))
        (Image.mk 60 60 (fun _ _ => (9, 9, 9)))).pix 0 0 = colorDeadCell := by
  have h := render_projection_C5 60 60 (fun y x => Cell.mk false (decide (y = 5 ∧ x = 4)))
    (Image.mk 60 60 (fun _ _ => (9, 9, 9))) rfl rfl
  constructor
  · rw [h.2.2.2.2 4 3 (by decide) (by decide) (fun _ _ _ => rfl)]
    decide
  · rw [h.2.2.2.2 0 0 (by decide) (by decide) (fun _ _ _ => rfl)]
    decide

/-- Claim C8 counterexample: `CopyToImage` performs no dimension check and
does not fail on a mismatched image.  The reference field is 60 × 60; on a
1 × 1 image (dimensions differing from 60 × 60) whose pixel holds a sentinel
colour, `CopyToImage` overwrites that pixel, so the image is not left
unchanged and no `InvalidDimensions` condition exists anywhere in the
operation. -/
theorem render_mismatch_counterexample_C8 :
    (CopyToImage (fun _ _ => Cell.mk false false)
        (Image.mk 1 1 (fun _ _ => (7, 7, 7)))).pix 0 0 ≠
      (Image.mk 1 1 (fun _ _ => ((7, 7, 7) : Color))).pix 0 0 := by
  decide

/-- Claim C8 as amended: `CopyToImage` has no dimension check and no failure
path: for any image whatsoever, it unconditionally overwrites every pixel
inside the image's own bounds from grid cell `(y+1, x+1)` and leaves the
dimensions unchanged; the caller must supply a `W × H` image (the reference
program always does). -/
theorem render_unchecked_C8 (g : GridF) (img : Image) (y x : Nat)
    (hy : y < img.height) (hx : x < img.width) :
    (CopyToImage g img).pix y x =
      (if (g (y + 1) (x + 1)).current then colorLivingCell else colorDeadCell) ∧
    (CopyToImage g img).width = img.width ∧
    (CopyToImage g img).height = img.height := by
  refine ⟨?_, rfl, rfl⟩
  simp only [CopyToImage]
  rw [if_pos ⟨hy, hx⟩]

/-- Witness for the amended C8 on the mismatched 1 × 1 image. -/
theorem render_unchecked_C8_witness :
    (CopyToImage (fun _ _ => Cell.mk false false)
        (Image.mk 1 1 (fun _ _ => (7, 7, 7)))).pix 0 0 =
      (if ((fun _ _ => Cell.mk false false : GridF) (0 + 1) (0 + 1)).current
        then colorLivingCell else colorDeadCell) ∧
    (CopyToImage (fun _ _ => Cell.mk false false)
        (Image.mk 1 1 (fun _ _ => (7, 7, 7)))).width =
      (Image.mk 1 1 (fun _ _ => ((7, 7, 7) : Color))).width ∧
    (CopyToImage (fun _ _ => Cell.mk false false)
        (Image.mk 1 1 (fun _ _ => (7, 7, 7)))).height =
      (Image.mk 1 1 (fun _ _ => ((7, 7, 7) : Color))).height :=
  render_unchecked_C8 _ _ 0 0 (by decide) (by decide)

/-- Claim C10: for every cursor position in the editable canvas
(`0 ≤ px ≤ 598`, `0 ≤ py ≤ 598`), the mouse-edit target
`(px / 10 + 1, py / 10 + 1)` lies in the logical interior `[1,60] × [1,60]`
of the 62 × 62 grid (so within the allocated grid and never on padding), and
the edit writes only the target cell's `current` bit: every `previous` bit
and every other cell are unchanged. -/
theorem mouse_edit_safe_C10 (px py : Nat) (hpx : px ≤ 598) (hpy : py ≤ 598) :
    isInterior 60 60 (mouseTarget px py).2 (mouseTarget px py).1 ∧
    (mouseTarget px py).2 ≤ 61 ∧
    (mouseTarget px py).1 ≤ 61 ∧
    (∀ g b y x, isPadding 60 60 y x → mouseEdit g px py b y x = g y x) ∧
    (∀ g b y x, (mouseEdit g px py b y x).previous = (g y x).previous) ∧
    (∀ g b y x, ¬(y = (mouseTarget px py).2 ∧ x = (mouseTarget px py).1) →
      mouseEdit g px py b y x = g y x) ∧
    (∀ g b, (mouseEdit g px py b (mouseTarget px py).2 (mouseTarget px py).1).current = b) := by
  simp only [mouseTarget, mouseEdit]
  refine ⟨by unfold isInterior; omega, by omega, by omega, ?_, ?_, ?_, ?_⟩
  · intro g b y x hp
    apply setCurrent_other
    unfold isPadding at hp
    omega
  · intro g b y x
    exact setCurrent_previous g _ _ b y x
  · intro g b y x h
    exact setCurrent_other g _ _ b y x h
  · intro g b
    exact setCurrent_target g _ _ b

/-- Witness for C10 at the far canvas corner `(598, 598)`: the target is
interior, a padding cell is unchanged, and the target's `current` is set. -/
theorem mouse_edit_safe_C10_witness :
    isInterior 60 60 (mouseTarget 598 598).2 (mouseTarget 598 598).1 ∧
    mouseEdit (fun _ _ => Cell.mk true false) 598 598 true 0 0 =
      (fun _ _ => Cell.mk true false : GridF) 0 0 ∧
    (mouseEdit (fun _ _ => Cell.mk true false) 598 598 true (mouseTarget 598 598).2
        (mouseTarget 598 598).1).current = true := by
  have h := mouse_edit_safe_C10 598 598 (by decide) (by decide)
  exact ⟨h.1, h.2.2.2.1 _ true 0 0 (by decide), h.2.2.2.2.2.2 _ true⟩

end GameOfLife
